import Mathlib

/-!
Verification of dagny's core: content negotiation (`dagny/conneg.py`),
rendering (`dagny/renderer.py`), action dispatch (`dagny/resource.py`)
and URL route generation (`dagny/urls/router.py`).

Python strings are modelled as Lean `String`/`List Char`; Python dicts and
`odict`s as association lists; exceptions as `Option`/`Except` results or
explicit result constructors.
-/

namespace Dagny

universe u

variable {α : Type u} {β : Type u} {ρ : Type u} {σ : Type u}

/-! ### Python string helpers -/

/-- Model of Python `str.split(sep)` for a one-character separator. -/
def splitOnChar (sep : Char) : List Char → List (List Char)
  | [] => [[]]
  | c :: cs =>
    match splitOnChar sep cs with
    | [] => if c = sep then [[], []] else [[c]]
    | h :: t => if c = sep then [] :: h :: t else (c :: h) :: t

/-- Model of Python `str.strip()`: whitespace removed from both ends. -/
def trimChars (l : List Char) : List Char :=
  ((l.dropWhile Char.isWhitespace).reverse.dropWhile Char.isWhitespace).reverse

/-- ASCII upper-casing of one character. -/
def upperChar (c : Char) : Char :=
  if 'a' ≤ c ∧ c ≤ 'z' then Char.ofNat (c.toNat - 32) else c

/-- Model of Python `str.upper()` (ASCII range, which covers HTTP methods). -/
def pyUpper (s : String) : String := ⟨s.data.map upperChar⟩

/-- Model of Python `list.index`: position of the first occurrence. -/
def pyIndex [DecidableEq α] : List α → α → Nat
  | [], _ => 0
  | y :: ys, x => if y = x then 0 else pyIndex ys x + 1

/-! ### `dagny/conneg.py` -/

/-- The shortcode => mimetype registry from `dagny/conneg.py`: the five
explicitly seeded entries, together with those entries loaded from the
stdlib `mimetypes.types_map` table (external data) that this development
refers to ("html", "txt" and "png" are stdlib-derived). `setdefault` keeps
the explicit entries authoritative, so keys are unique. -/
def MIMETYPES : List (String × String) :=
  [("rss", "application/rss+xml"),
   ("json", "application/json"),
   ("rdf_xml", "application/rdf+xml"),
   ("xhtml", "application/xhtml+xml"),
   ("xml", "application/xml"),
   ("html", "text/html"),
   ("txt", "text/plain"),
   ("png", "image/png")]

/-- All-digit numeral parse; `none` when empty or a non-digit appears. -/
def parseDigitsAux : List Char → Nat → Option Nat
  | [], acc => some acc
  | c :: cs, acc =>
    if c.isDigit then parseDigitsAux cs (acc * 10 + (c.toNat - 48)) else none

/-- Digits of a decimal numeral, `none` on the empty list. -/
def parseDigits : List Char → Option Nat
  | [] => none
  | l => parseDigitsAux l 0

/-- Modelled from webob's `Accept` parsing (a third-party dependency of the
source): a `q=` value as a whole number of 1/1000ths, clamped to [0, 1000];
values that do not parse as a nonnegative decimal fall back to quality 1. -/
def parseQPerMille (l : List Char) : Nat :=
  match splitOnChar '.' l with
  | [i] =>
    match parseDigits i with
    | some n => min (n * 1000) 1000
    | none => 1000
  | [i, f] =>
    match parseDigits i, parseDigits ((f ++ ['0', '0', '0']).take 3) with
    | some n, some fr => min (n * 1000 + fr) 1000
    | _, _ => 1000
  | _ => 1000

/-- Find the value of a `q=<val>` parameter among `;`-separated parameters. -/
def findQParam : List (List Char) → Option (List Char)
  | [] => none
  | p :: ps =>
    match p with
    | 'q' :: '=' :: rest => some rest
    | _ => findQParam ps

/-- Modelled from webob's `MIMEAccept.parse` (third-party): one
`media-type[;parameters]` Accept-header item. Items with no `/` in the media
type and items with quality 0 are dropped; a missing `q` parameter means
quality 1. -/
def parseAcceptItem (item : List Char) : Option (String × Nat) :=
  match (splitOnChar ';' item).map trimChars with
  | [] => none
  | mt :: params =>
    if mt.isEmpty then none
    else if mt.contains '/' then
      let q : Nat :=
        match findQParam params with
        | some qs => parseQPerMille qs
        | none => 1000
      if q = 0 then none else some (⟨mt⟩, q)
    else none

/-- Modelled from webob (third-party): parse a whole Accept header into
(media type, quality) pairs. -/
def parseAccept (header : String) : List (String × Nat) :=
  ((splitOnChar ',' header.data).map trimChars).filterMap parseAcceptItem

/-- Stable insertion step of a descending-by-quality sort (Python's `sorted`
is stable; the element being inserted precedes equal-quality elements that
were later in the original list). -/
def insertByQ (x : String × Nat) : List (String × Nat) → List (String × Nat)
  | [] => [x]
  | y :: ys => if y.2 ≤ x.2 then x :: y :: ys else y :: insertByQ x ys

/-- Stable descending-by-quality sort. -/
def sortByQDesc : List (String × Nat) → List (String × Nat)
  | [] => []
  | x :: xs => insertByQ x (sortByQDesc xs)

/-- Modelled from webob (third-party):
`MIMEAccept("Accept", header).best_matches()` — the client's media types in
descending-quality order. -/
def best_matches (header : String) : List String :=
  (sortByQDesc (parseAccept header)).map Prod.fst

/-- Model of `map(MIMETYPES.__getitem__, shortcodes)`; `none` models the
`KeyError` raised for a shortcode that is not registered. -/
def lookupAll : List String → Option (List String)
  | [] => some []
  | sc :: rest =>
    match MIMETYPES.lookup sc, lookupAll rest with
    | some mt, some mts => some (mt :: mts)
    | _, _ => none

/-- `match_accept(header, shortcodes)` from `dagny/conneg.py`: resolve the
candidate shortcodes to mimetypes, keep those present among the client's
`best_matches`, and map the survivors back to shortcodes through
`server_types.index`. -/
def match_accept (header : String) (shortcodes : List String) :
    Option (List String) :=
  match lookupAll shortcodes with
  | none => none
  | some server_types =>
    let client_types := best_matches header
    let matchesL := server_types.filter (fun mt => decide (mt ∈ client_types))
    some (matchesL.map (fun mt => shortcodes.getD (pyIndex server_types mt) ""))

/-! ### `dagny/renderer.py` -/

/-- A Django `HttpResponse`, reduced to the fields this development needs. -/
structure Response where
  status : Nat
  contentType : Option String
deriving DecidableEq

/-- `not_acceptable`: `HttpResponse(status=406)` with its Content-Type header
deleted. -/
def notAcceptableResponse : Response := { status := 406, contentType := none }

/-- What one renderer backend does when invoked on the fixed (action,
resource) pair of a request: produce a response, raise `Skip`, or raise some
other error `e`. -/
inductive BackendOutcome
  | rendered (r : Response)
  | skip
  | failure (e : Nat)
deriving DecidableEq

/-- Result of `Renderer.__call__`: a returned response, a propagated
non-`Skip` error, or the `KeyError` of a shortcode missing from the table. -/
inductive RenderResult
  | ok (r : Response)
  | raised (e : Nat)
  | keyError (shortcode : String)
deriving DecidableEq

/-- The backend loop of `Renderer.__call__` over an already-computed
candidate list, paired with the trace of shortcodes whose backends were
invoked, in invocation order. `Skip` moves on to the next candidate; any
other outcome ends the loop; an exhausted list yields the 406 response. -/
def rendererRun (backends : List (String × BackendOutcome)) :
    List String → RenderResult × List String
  | [] => (.ok notAcceptableResponse, [])
  | sc :: rest =>
    match backends.lookup sc with
    | none => (.keyError sc, [])
    | some (.rendered r) => (.ok r, [sc])
    | some (.failure e) => (.raised e, [sc])
    | some .skip =>
      ((rendererRun backends rest).1, sc :: (rendererRun backends rest).2)

/-- `Renderer._match`: explicit format override first (when truthy and
registered), then the `match_accept` results for a truthy Accept header
(`none` propagates `match_accept`'s `KeyError`), then the `"html"` fallback
when the list is still empty. -/
def renderer_match (keys : List String) (formatOverride : Option String)
    (acceptHeader : Option String) : Option (List String) :=
  let m1 : List String :=
    match formatOverride with
    | some f => if f ≠ "" ∧ f ∈ keys then [f] else []
    | none => []
  let m2 : Option (List String) :=
    match acceptHeader with
    | some h =>
      if h ≠ "" then (match_accept h keys).map (fun acc => m1 ++ acc)
      else some m1
    | none => some m1
  m2.map (fun m => if m = [] ∧ "html" ∈ keys then ["html"] else m)

/-- odict `__setitem__`: an existing key is overwritten in place, a new key
is appended at the end. -/
def odictSet (t : List (String × β)) (k : String) (v : β) :
    List (String × β) :=
  if t.any (fun p => decide (p.1 = k)) then
    t.map (fun p => if p.1 = k then (k, v) else p)
  else t ++ [(k, v)]

/-- odict `__delitem__` (the entry for `k`, when present, is removed). -/
def odictDel (t : List (String × β)) (k : String) : List (String × β) :=
  t.filter (fun p => decide (p.1 ≠ k))

/-- A heap of backend tables. Table ids model Python object identity, making
the `backends.copy()` in `Renderer.__init__` observable as a fresh
allocation rather than an alias. -/
structure Store (β : Type u) where
  tables : List (List (String × β))

/-- Contents of the table with id `tid`. -/
def getTable (s : Store β) (tid : Nat) : List (String × β) :=
  s.tables.getD tid []

/-- Allocate a fresh table holding `t`; returns the new store and the id. -/
def allocTable (s : Store β) (t : List (String × β)) : Store β × Nat :=
  (⟨s.tables ++ [t]⟩, s.tables.length)

/-- Replace the contents of table `tid`. -/
def setTable (s : Store β) (tid : Nat) (t : List (String × β)) : Store β :=
  ⟨s.tables.set tid t⟩

/-- `Renderer.__init__`: with no argument a fresh empty odict is allocated;
with a `backends` argument, `backends.copy()` is stored, i.e. a fresh table
with the same contents. -/
def rendererInit (s : Store β) (backends : Option Nat) : Store β × Nat :=
  match backends with
  | none => allocTable s []
  | some tid => allocTable s (getTable s tid)

/-- `Renderer._bind`: `BoundRenderer(action, backends=self._backends)`;
`BoundRenderer.__init__` delegates to `Renderer.__init__`, which copies. -/
def rendererBind (s : Store β) (tid : Nat) : Store β × Nat :=
  rendererInit s (some tid)

/-- `renderer[k] = v` on the renderer owning table `tid`. -/
def storeSetItem (s : Store β) (tid : Nat) (k : String) (v : β) : Store β :=
  setTable s tid (odictSet (getTable s tid) k v)

/-- `del renderer[k]` on the renderer owning table `tid`. -/
def storeDelItem (s : Store β) (tid : Nat) (k : String) : Store β :=
  setTable s tid (odictDel (getTable s tid) k)

/-- `Renderer.__getattr__` decorator registration, applied to a function:
an unregistered shortcode raises `AttributeError` (carrying the shortcode)
before anything is registered; a registered one sets
`self[shortcode] = function` (the decorator then returns the function
unchanged). -/
def rendererDecorate (mimetypes : List (String × String))
    (t : List (String × β)) (shortcode : String) (f : β) :
    Except String (List (String × β)) :=
  if (mimetypes.lookup shortcode).isSome then .ok (odictSet t shortcode f)
  else .error shortcode

/-- `resource_method_wrapper`: wrap a 0-ary resource method as a generic
(action, resource) backend. -/
def resource_method_wrapper (method : ρ → σ) : α → ρ → σ :=
  fun _ resource => method resource

/-- `BoundRenderer.__getattr__` decorator registration, applied to a method:
same `AttributeError` guard; a registered shortcode sets
`self[shortcode] = resource_method_wrapper(method)` (the decorator then
returns the bound action, leaving the original name intact). -/
def boundRendererDecorate (mimetypes : List (String × String))
    (t : List (String × (α → ρ → σ))) (shortcode : String) (method : ρ → σ) :
    Except String (List (String × (α → ρ → σ))) :=
  if (mimetypes.lookup shortcode).isSome then
    .ok (odictSet t shortcode (resource_method_wrapper method))
  else .error shortcode

/-! ### `dagny/resource.py` -/

/-- `Resource._allowed_methods`: the methods of the map whose action the
resource implements (`hasattr`). -/
def allowed_methods (hasAction : String → Bool)
    (tbl : List (String × String)) : List String :=
  (tbl.filter (fun p => hasAction p.2)).map Prod.fst

/-- The three outcomes of `Resource._route`: the stub 404 view, the 405 view
carrying the allowed methods, or the action to invoke. -/
inductive RouteDecision
  | notFound
  | notAllowed (allowed : List String)
  | invoke (actionName : String)
deriving DecidableEq

/-- `Resource._route`. The inner `none` arm is unreachable: membership in
`allowed_methods` implies the method is a key of the map. -/
def resourceRoute (method : String) (hasAction : String → Bool)
    (tbl : List (String × String)) : RouteDecision :=
  let allowed := allowed_methods hasAction tbl
  if method ∈ allowed then
    match tbl.lookup method with
    | some a => .invoke a
    | none => .notFound
  else if allowed.isEmpty then .notFound
  else .notAllowed allowed

/-- A value in a Django view-kwargs dict: the router passes strings and (per
the tests) a method->action table. -/
inductive KwargValue
  | str (s : String)
  | table (t : List (String × String))
deriving DecidableEq

/-- The request fields `Resource.__call__` reads: the HTTP method and the
optional `_method` POST override. -/
structure RequestModel where
  method : String
  postMethodOverride : Option String
deriving DecidableEq

/-- Result of one `Resource.__call__` invocation. -/
inductive CallOutcome
  | selfReturned
  | valueError
  | http404
  | http405 (allowed : List String)
  | actionResponse (actionName : String) (r : Response)
deriving DecidableEq

/-- `Resource.__call__`: a second call returns the resource itself; otherwise
the method (with `_method` override, upper-cased) is routed through the
`methods` view kwarg, whose absence raises
`ValueError("Expected 'methods' dict in view kwargs")`. The result is
(outcome, the `_called_yet` flag afterwards, actions executed by the call);
`act` gives the response an invoked action produces. -/
def resourceCall (act : String → Response) (hasAction : String → Bool)
    (req : RequestModel) (params : List (String × KwargValue))
    (calledYet : Bool) : CallOutcome × Bool × List String :=
  if calledYet then (.selfReturned, calledYet, [])
  else
    let method := pyUpper (req.postMethodOverride.getD req.method)
    match params.lookup "methods" with
    | some (.table tbl) =>
      match resourceRoute method hasAction tbl with
      | .notFound => (.http404, true, [])
      | .notAllowed allowed => (.http405 allowed, true, [])
      | .invoke a => (.actionResponse a (act a), true, [a])
    | _ => (.valueError, true, [])

/-! ### `dagny/urls/router.py` -/

/-- One `url(pattern, resource_name, kwargs=..., name=...)` entry. -/
structure RouteEntry where
  pattern : String
  target : String
  kwargs : List (String × KwargValue)
  name : String
deriving DecidableEq

/-- `URLRouter._make_patterns`: one route per `(action_name, action_param)`
pair whose action name is in the whitelist (all of them when the whitelist
is absent; the source's `set(...)` only ever serves membership tests), with
kwargs `{'action': action_param, 'mode': mode}` and reverse-lookup name
`"<name>#<action_name>"`, `name` defaulting to `resource_name`. `style` is
the callable the router expects: action parameter, mode, id regex to
pattern. -/
def make_patterns (style : String → String → String → String)
    (resource_name : String) (id : String) (name : Option String)
    (actions : Option (List String)) (mode : String)
    (action_patterns : List (String × String)) : List RouteEntry :=
  let acts : List String :=
    match actions with
    | none => action_patterns.map Prod.fst
    | some a => a
  let nm := name.getD resource_name
  (action_patterns.filter (fun p => decide (p.1 ∈ acts))).map
    (fun p =>
      { pattern := style p.2 mode id
        target := resource_name
        kwargs := [("action", .str p.2), ("mode", .str mode)]
        name := nm ++ "#" ++ p.1 })

/-- The `(action_name, action_param)` table of `URLRouter.resources`. -/
def resourcesActionPatterns : List (String × String) :=
  [("index", "index"), ("create", "index"), ("new", "new"), ("show", "show"),
   ("update", "show"), ("destroy", "show"), ("edit", "edit")]

/-- `URLRouter.resources`. -/
def urlRouterResources (style : String → String → String → String)
    (resource_name : String) (id : String) (actions : Option (List String))
    (name : Option String) : List RouteEntry :=
  make_patterns style resource_name id name actions "plural"
    resourcesActionPatterns

/-- The action vocabulary of `URLRouter.resources`. -/
def resourcesActionNames : List String :=
  resourcesActionPatterns.map Prod.fst

/-! ### Derived notions used to state properties -/

/-- The mimetype registered for a shortcode, defaulting an (impossible under
the theorems' hypotheses) missing registration to `""`. -/
def mimetypeOfD (sc : String) : String := (MIMETYPES.lookup sc).getD ""

/-- Whether a candidate shortcode survives negotiation against a client
media-type list: its registered mimetype appears in that list. -/
def acceptedBy (client : List String) (sc : String) : Bool :=
  match MIMETYPES.lookup sc with
  | some mt => decide (mt ∈ client)
  | none => false

/-! ### Concrete instances used by witnesses and counterexamples -/

/-- A stand-in 200 response. -/
def demoResponse : Response := { status := 200, contentType := some "text/html" }

/-- An action table where every action yields `demoResponse`. -/
def demoAct : String → Response := fun _ => demoResponse

/-- Two backends that both raise `Skip`. -/
def demoSkipTable : List (String × BackendOutcome) :=
  [("json", .skip), ("xml", .skip)]

/-- A one-table store. -/
def demoStore : Store Nat := ⟨[[("html", 1)]]⟩

/-- View kwargs carrying a `methods` table, as the routing tests expect. -/
def demoParams : List (String × KwargValue) :=
  [("methods", .table [("GET", "show")])]

/-- A plain GET request with no `_method` override. -/
def demoReq : RequestModel := { method := "GET", postMethodOverride := none }

/-- A constant URL style callable of the arity the router uses. -/
def demoStyle : String → String → String → String := fun _ _ _ => "^$"

/-- The index route that `urlRouterResources demoStyle "users.resources.User"
"[0-9]+" none none` generates. -/
def demoRoute : RouteEntry :=
  { pattern := "^$"
    target := "users.resources.User"
    kwargs := [("action", .str "index"), ("mode", .str "plural")]
    name := "users.resources.User#index" }

/-! ### Dispatch lemmas (`Resource._route`, `Resource._allowed_methods`) -/

theorem mem_allowed_methods_iff (hasAction : String → Bool)
    (tbl : List (String × String)) (m : String) :
    m ∈ allowed_methods hasAction tbl
      ↔ ∃ a, (m, a) ∈ tbl ∧ hasAction a = true := by
  simp only [allowed_methods, List.mem_map, List.mem_filter]
  constructor
  · rintro ⟨⟨m', a⟩, ⟨hmem, hact⟩, rfl⟩
    exact ⟨a, hmem, hact⟩
  · rintro ⟨a, hmem, hact⟩
    exact ⟨(m, a), ⟨hmem, hact⟩, rfl⟩

theorem lookup_eq_of_mem_of_nodupKeys (tbl : List (String × String))
    (hnd : (tbl.map Prod.fst).Nodup) (m a : String) (h : (m, a) ∈ tbl) :
    tbl.lookup m = some a := by
  induction tbl with
  | nil => cases h
  | cons p t ih =>
    obtain ⟨k, v⟩ := p
    simp only [List.map_cons, List.nodup_cons] at hnd
    rcases List.mem_cons.1 h with heq | htl
    · cases heq
      simp [List.lookup]
    · have hne : (m == k) = false := by
        apply beq_eq_false_iff_ne.2
        intro hmk
        apply hnd.1
        subst hmk
        exact List.mem_map.2 ⟨(m, a), htl, rfl⟩
      simp only [List.lookup, hne]
      exact ih hnd.2 htl

/-- C2: `allowed_methods` is the set of methods of the table whose mapped
action the resource implements; when it is empty, `_route` yields the 404
decision; when the request method is outside it, `_route` yields the 405
decision carrying exactly `allowed_methods`; otherwise `_route` invokes the
action the table maps the method to. -/
theorem c2_dispatch_404_405 (method : String) (hasAction : String → Bool)
    (tbl : List (String × String)) (hnd : (tbl.map Prod.fst).Nodup) :
    (∀ m, m ∈ allowed_methods hasAction tbl
        ↔ ∃ a, (m, a) ∈ tbl ∧ hasAction a = true)
    ∧ (allowed_methods hasAction tbl = []
        → resourceRoute method hasAction tbl = .notFound)
    ∧ (allowed_methods hasAction tbl ≠ []
        → method ∉ allowed_methods hasAction tbl
        → resourceRoute method hasAction tbl
            = .notAllowed (allowed_methods hasAction tbl))
    ∧ (method ∈ allowed_methods hasAction tbl
        → ∃ a, tbl.lookup method = some a ∧ hasAction a = true
            ∧ resourceRoute method hasAction tbl = .invoke a) := by
  refine ⟨mem_allowed_methods_iff hasAction tbl, ?_, ?_, ?_⟩
  · intro hempty
    simp [resourceRoute, hempty]
  · intro hne hnotmem
    simp [resourceRoute, hnotmem, List.isEmpty_iff, hne]
  · intro hmem
    obtain ⟨a, hmema, hact⟩ := (mem_allowed_methods_iff hasAction tbl method).1 hmem
    have hlk := lookup_eq_of_mem_of_nodupKeys tbl hnd method a hmema
    exact ⟨a, hlk, hact, by simp [resourceRoute, hmem, hlk]⟩

/-- Closed instances of C2 at the claim's two examples: an unimplemented
`show` gives 404, and a DELETE against `{GET: show}` with `show` implemented
gives 405 carrying `["GET"]`. -/
theorem c2_dispatch_404_405_witness :
    resourceRoute "GET" (fun _ => false) [("GET", "show")] = .notFound
    ∧ resourceRoute "DELETE" (fun a => decide (a = "show")) [("GET", "show")]
        = .notAllowed ["GET"] := by
  constructor
  · exact (c2_dispatch_404_405 "GET" (fun _ => false) [("GET", "show")]
      (by decide)).2.1 (by decide)
  · exact (c2_dispatch_404_405 "DELETE" (fun a => decide (a = "show"))
      [("GET", "show")] (by decide)).2.2.1 (by decide) (by decide)

/-! ### Renderer loop lemmas (`Renderer.__call__`) -/

theorem rendererRun_trace_take (B : List (String × BackendOutcome)) :
    ∀ cs : List String, ∃ k, (rendererRun B cs).2 = cs.take k := by
  intro cs
  induction cs with
  | nil => exact ⟨0, rfl⟩
  | cons sc rest ih =>
    cases hlk : B.lookup sc with
    | none => exact ⟨0, by simp [rendererRun, hlk]⟩
    | some o =>
      cases o with
      | rendered r => exact ⟨1, by simp [rendererRun, hlk]⟩
      | failure e => exact ⟨1, by simp [rendererRun, hlk]⟩
      | skip =>
        obtain ⟨k, hk⟩ := ih
        exact ⟨k + 1, by simp [rendererRun, hlk, hk]⟩

theorem rendererRun_all_skip (B : List (String × BackendOutcome)) :
    ∀ cs : List String, (∀ sc ∈ cs, B.lookup sc = some .skip) →
      rendererRun B cs = (.ok notAcceptableResponse, cs) := by
  intro cs
  induction cs with
  | nil => intro _; rfl
  | cons sc rest ih =>
    intro hall
    have hsc := hall sc (List.mem_cons_self ..)
    have hrest := ih (fun x hx => hall x (List.mem_cons_of_mem _ hx))
    simp [rendererRun, hsc, hrest]

/-- C3: the renderer loop invokes backends along a prefix of the candidate
list (in order, each position at most once, hence with distinct candidates
no backend twice); a `Skip` from the head's backend makes the loop continue
with the remaining candidates, prepending only the trace entry; when every
candidate's backend raises `Skip`, every candidate is tried and the result
is the 406 Not Acceptable response; a non-`Skip` failure propagates. -/
theorem c3_skip_semantics (B : List (String × BackendOutcome))
    (cs : List String) :
    (∃ k, (rendererRun B cs).2 = cs.take k)
    ∧ (cs.Nodup → ∀ sc, ((rendererRun B cs).2.count sc) ≤ 1)
    ∧ (∀ sc rest, B.lookup sc = some .skip →
        rendererRun B (sc :: rest)
          = ((rendererRun B rest).1, sc :: (rendererRun B rest).2))
    ∧ ((∀ sc ∈ cs, B.lookup sc = some .skip) →
        rendererRun B cs = (.ok notAcceptableResponse, cs))
    ∧ (∀ sc rest e, B.lookup sc = some (.failure e) →
        (rendererRun B (sc :: rest)).1 = .raised e) := by
  refine ⟨rendererRun_trace_take B cs, ?_, ?_, rendererRun_all_skip B cs, ?_⟩
  · intro hnd sc
    obtain ⟨k, hk⟩ := rendererRun_trace_take B cs
    rw [hk]
    calc (cs.take k).count sc ≤ cs.count sc :=
          (List.take_sublist k cs).count_le sc
      _ ≤ 1 := List.nodup_iff_count_le_one.1 hnd sc
  · intro sc rest hlk
    simp [rendererRun, hlk]
  · intro sc rest e hlk
    simp [rendererRun, hlk]

/-- Closed instance of C3: with both backends raising `Skip`, both
candidates are tried in order and the outcome is the 406 response. -/
theorem c3_skip_semantics_witness :
    rendererRun demoSkipTable ["json", "xml"]
      = (.ok notAcceptableResponse, ["json", "xml"]) :=
  (c3_skip_semantics demoSkipTable ["json", "xml"]).2.2.2.1 (by decide)

/-! ### Re-entrancy of `Resource.__call__` -/

/-- C6 counterexample: the first invocation returns the action's response,
while the second invocation (with the `_called_yet` flag the first one set)
returns the resource object itself, which is a different result. -/
theorem c6_counterexample :
    (resourceCall demoAct (fun _ => true) demoReq demoParams false).1
        = .actionResponse "show" demoResponse
    ∧ (resourceCall demoAct (fun _ => true) demoReq demoParams
        ((resourceCall demoAct (fun _ => true) demoReq demoParams false).2.1)).1
        = .selfReturned
    ∧ CallOutcome.actionResponse "show" demoResponse ≠ .selfReturned := by
  decide

/-- C6 as amended: every first call leaves the `_called_yet` flag set, and a
call on a resource whose flag is set returns the resource itself and
executes no action (so no side effects are re-run) — rather than returning
the first call's result. -/
theorem c6_reinvocation (act : String → Response) (hasAction : String → Bool)
    (req : RequestModel) (params : List (String × KwargValue)) :
    (resourceCall act hasAction req params false).2.1 = true
    ∧ resourceCall act hasAction req params true = (.selfReturned, true, []) := by
  constructor
  · simp only [resourceCall]
    cases hlk : params.lookup "methods" with
    | none => simp
    | some v =>
      cases v with
      | str s => simp
      | table tbl =>
        cases hr : resourceRoute (pyUpper (req.postMethodOverride.getD req.method))
            hasAction tbl <;> simp [hr]
  · rfl

/-! ### Decorator-style registration (`__getattr__` on both renderers) -/

/-- C10: decorator-style attribute access for a shortcode missing from the
`MIMETYPES` registry raises `AttributeError` carrying the shortcode, on both
`Renderer` and `BoundRenderer`, producing no updated table; for a registered
shortcode, `Renderer` registers the decorated function itself, while
`BoundRenderer` registers `resource_method_wrapper(method)`, whose behavior
on every (action, resource) pair is the decorated method on the resource. -/
theorem c10_decorator_guard (mimetypes : List (String × String))
    (t : List (String × β)) (sc : String) (f : β)
    (tb : List (String × (α → ρ → σ))) (m : ρ → σ) :
    (mimetypes.lookup sc = none →
        rendererDecorate mimetypes t sc f = .error sc
        ∧ boundRendererDecorate mimetypes tb sc m = .error sc)
    ∧ (∀ mt, mimetypes.lookup sc = some mt →
        rendererDecorate mimetypes t sc f = .ok (odictSet t sc f)
        ∧ boundRendererDecorate mimetypes tb sc m
            = .ok (odictSet tb sc (resource_method_wrapper m))
        ∧ ∀ (a : α) (r : ρ), (resource_method_wrapper m : α → ρ → σ) a r = m r) := by
  constructor
  · intro hnone
    constructor
    · simp [rendererDecorate, hnone]
    · simp [boundRendererDecorate, hnone]
  · intro mt hsome
    refine ⟨?_, ?_, fun a r => rfl⟩
    · simp [rendererDecorate, hsome]
    · simp [boundRendererDecorate, hsome]

/-- Closed instance of C10: the unregistered shortcode "bogus" raises
`AttributeError` and the registered shortcode "json" appends the backend. -/
theorem c10_decorator_guard_witness :
    rendererDecorate MIMETYPES [("html", 1)] "bogus" 2 = .error "bogus"
    ∧ rendererDecorate MIMETYPES [("html", 1)] "json" 2
        = .ok [("html", 1), ("json", 2)] := by
  constructor
  · exact ((c10_decorator_guard MIMETYPES [("html", 1)] "bogus" 2
      ([] : List (String × (Nat → Nat → Nat))) (fun x => x)).1 (by decide)).1
  · exact (((c10_decorator_guard MIMETYPES [("html", 1)] "json" 2
      ([] : List (String × (Nat → Nat → Nat))) (fun x => x)).2 "application/json"
      (by decide)).1).trans (by rfl)

/-! ### Copy-on-bind (`Renderer._bind` / `Renderer.__init__`) -/

theorem getTable_concat_self (s : Store β) (t : List (String × β)) :
    getTable ⟨s.tables ++ [t]⟩ s.tables.length = t := by
  simp [getTable, List.getD, List.getElem?_concat_length]

theorem getTable_concat_lt (s : Store β) (t : List (String × β)) (j : Nat)
    (h : j < s.tables.length) :
    getTable ⟨s.tables ++ [t]⟩ j = getTable s j := by
  simp [getTable, List.getD, List.getElem?_append_left h]

theorem getTable_setTable_ne (s : Store β) (i j : Nat)
    (t : List (String × β)) (h : i ≠ j) :
    getTable (setTable s i t) j = getTable s j := by
  simp [getTable, setTable, List.getD, List.getElem?_set_ne h]

/-- C9: `_bind` allocates a distinct table (never an alias of the generic
one) holding a copy of the generic contents; afterwards inserting,
overwriting (both via `__setitem__`) or deleting on the bound table leaves
the generic table's entries unchanged, and the same mutations on the
generic table leave the bound table's entries unchanged. -/
theorem c9_copy_on_bind (s : Store β) (g : Nat) (hg : g < s.tables.length) :
    (rendererBind s g).2 ≠ g
    ∧ getTable (rendererBind s g).1 (rendererBind s g).2 = getTable s g
    ∧ getTable (rendererBind s g).1 g = getTable s g
    ∧ (∀ k v, getTable (storeSetItem (rendererBind s g).1 (rendererBind s g).2 k v) g
        = getTable (rendererBind s g).1 g)
    ∧ (∀ k, getTable (storeDelItem (rendererBind s g).1 (rendererBind s g).2 k) g
        = getTable (rendererBind s g).1 g)
    ∧ (∀ k v, getTable (storeSetItem (rendererBind s g).1 g k v) (rendererBind s g).2
        = getTable (rendererBind s g).1 (rendererBind s g).2)
    ∧ (∀ k, getTable (storeDelItem (rendererBind s g).1 g k) (rendererBind s g).2
        = getTable (rendererBind s g).1 (rendererBind s g).2) := by
  have hne : s.tables.length ≠ g := Nat.ne_of_gt hg
  refine ⟨hne, getTable_concat_self s _, getTable_concat_lt s _ g hg,
    fun k v => ?_, fun k => ?_, fun k v => ?_, fun k => ?_⟩
  · exact getTable_setTable_ne _ _ _ _ hne
  · exact getTable_setTable_ne _ _ _ _ hne
  · exact getTable_setTable_ne _ _ _ _ (Ne.symm hne)
  · exact getTable_setTable_ne _ _ _ _ (Ne.symm hne)

/-- Closed instance of C9: after binding, inserting "json" into the bound
copy leaves the generic table's contents untouched. -/
theorem c9_copy_on_bind_witness :
    getTable (storeSetItem (rendererBind demoStore 0).1
      (rendererBind demoStore 0).2 "json" 2) 0 = [("html", 1)] := by
  have h := (c9_copy_on_bind demoStore 0 (by decide)).2.2.2.1 "json" 2
  exact h.trans (by decide)

/-! ### Router-produced view kwargs (`URLRouter._make_patterns`) -/

/-- C5 (code bug): every route `URLRouter._make_patterns` generates carries
kwargs `{'action': ..., 'mode': ...}` with no `methods` key, so the
request-time dispatcher `Resource.__call__`, which pops the `methods` view
kwarg, raises `ValueError` on every request such a route matches. -/
theorem c5_router_kwargs (style : String → String → String → String)
    (resource_name id : String) (name : Option String)
    (actions : Option (List String)) (mode : String)
    (action_patterns : List (String × String)) :
    ∀ r ∈ make_patterns style resource_name id name actions mode
        action_patterns,
      r.kwargs.lookup "methods" = none
      ∧ ∀ (act : String → Response) (hasAction : String → Bool)
          (req : RequestModel),
          (resourceCall act hasAction req r.kwargs false).1 = .valueError := by
  intro r hr
  simp only [make_patterns, List.mem_map] at hr
  obtain ⟨p, hp, rfl⟩ := hr
  have hlk : (List.lookup "methods"
      [("action", KwargValue.str p.2), ("mode", KwargValue.str mode)]) = none := by
    simp [List.lookup]
  refine ⟨hlk, fun act hasAction req => ?_⟩
  simp [resourceCall, hlk]

/-- Closed instance of C5: the index route of
`URLRouter(style).resources("users.resources.User")` has no `methods`
kwarg, and dispatching a GET through it raises the `ValueError`. -/
theorem c5_router_kwargs_witness :
    demoRoute.kwargs.lookup "methods" = none
    ∧ (resourceCall demoAct (fun _ => true) demoReq demoRoute.kwargs false).1
        = .valueError := by
  have h := c5_router_kwargs demoStyle "users.resources.User" "[0-9]+" none
    none "plural" resourcesActionPatterns demoRoute (by decide)
  exact ⟨h.1, h.2 demoAct (fun _ => true) demoReq⟩

/-! ### Missing/empty Accept header (`Renderer._match`, `match_accept`) -/

/-- C7 counterexample: with candidates `["json", "xml"]`, no explicit format
and no Accept header, `_match` selects nothing at all (no `"html"` backend is
registered either), not all candidates in server order. -/
theorem c7_counterexample :
    renderer_match ["json", "xml"] none none = some []
    ∧ some ([] : List String) ≠ some ["json", "xml"] := by
  decide

/-- C7 as amended: a missing Accept header and an empty one behave alike —
the Accept-matching step is skipped (and `match_accept` on the empty header
survives no candidate anyway) — and with no explicit format the selected
candidates are exactly the `"html"` fallback when registered, otherwise
none. -/
theorem c7_empty_accept (keys : List String) (fmt : Option String)
    (acc : Option String) (hacc : acc = none ∨ acc = some "") :
    renderer_match keys fmt acc = renderer_match keys fmt none
    ∧ renderer_match keys none acc
        = some (if "html" ∈ keys then ["html"] else [])
    ∧ match_accept "" keys = (lookupAll keys).map (fun _ => ([] : List String)) := by
  have hbm : best_matches "" = [] := rfl
  refine ⟨?_, ?_, ?_⟩
  · rcases hacc with rfl | rfl <;> rfl
  · rcases hacc with rfl | rfl <;>
      · by_cases hh : "html" ∈ keys <;> simp [renderer_match, hh]
  · cases hl : lookupAll keys with
    | none => simp [match_accept, hl]
    | some sts => simp [match_accept, hl, hbm]

/-- Closed instance of C7 (amended): with only `"html"` registered and the
Accept header absent, the fallback selects `["html"]`. -/
theorem c7_empty_accept_witness :
    renderer_match ["html", "json"] none none = some ["html"] := by
  have h := (c7_empty_accept ["html", "json"] none none (Or.inl rfl)).2.1
  exact h.trans (by decide)

/-! ### Candidate-list construction (`Renderer._match`) -/

/-- C4 counterexample: with an explicit format "json" and an Accept header
that also selects "json", the candidate list is `["json", "json"]` — the
Accept results are appended without excluding shortcodes already present,
so a shortcode can appear twice. -/
theorem c4_counterexample :
    renderer_match ["html", "json"] (some "json") (some "application/json")
      = some ["json", "json"]
    ∧ ¬ (["json", "json"] : List String).Nodup := by
  decide

/-- C4 as amended: the candidate list is the explicit format first (when
truthy and registered), followed by all `match_accept` results appended
without any exclusion of already-listed shortcodes; only when the combined
list is empty and `"html"` is registered does the single `"html"` fallback
apply (the spec's scenario: only `"html"` registered, Accept `"image/png"`,
fallback used). -/
theorem c4_candidate_order (keys : List String) (f h : String)
    (accRes : List String) (hf : f ≠ "") (hfk : f ∈ keys) (hh : h ≠ "")
    (hacc : match_accept h keys = some accRes) :
    renderer_match keys (some f) (some h) = some (f :: accRes)
    ∧ (∀ ks hd, hd ≠ "" → match_accept hd ks = some [] → "html" ∈ ks →
        renderer_match ks none (some hd) = some ["html"])
    ∧ renderer_match ["html"] none (some "image/png") = some ["html"] := by
  refine ⟨?_, ?_, by decide⟩
  · simp [renderer_match, hf, hfk, hh, hacc]
  · intro ks hd hd0 hmk hhtml
    simp [renderer_match, hd0, hmk, hhtml]

/-- Closed instance of C4 (amended): explicit format "json" is the head of
the candidate list, ahead of the (here empty) Accept results. -/
theorem c4_candidate_order_witness :
    renderer_match ["html", "json"] (some "json") (some "application/xml")
      = some ["json"] :=
  (c4_candidate_order ["html", "json"] "json" "application/xml" []
    (by decide) (by decide) (by decide) (by decide)).1

/-! ### Negotiation ordering (`match_accept`) -/

theorem lookupAll_eq_map (scs : List String)
    (hreg : ∀ sc ∈ scs, (MIMETYPES.lookup sc).isSome = true) :
    lookupAll scs = some (scs.map mimetypeOfD) := by
  induction scs with
  | nil => rfl
  | cons sc rest ih =>
    obtain ⟨mt, hmt⟩ :=
      Option.isSome_iff_exists.1 (hreg sc (List.mem_cons_self ..))
    have h2 := ih (fun x hx => hreg x (List.mem_cons_of_mem _ hx))
    simp [lookupAll, hmt, h2, mimetypeOfD]

theorem backmap_filter (client : List String) :
    ∀ scs : List String,
      (∀ sc ∈ scs, (MIMETYPES.lookup sc).isSome = true) →
      ((scs.map mimetypeOfD).Nodup) →
      ((scs.map mimetypeOfD).filter (fun mt => decide (mt ∈ client))).map
          (fun mt => scs.getD (pyIndex (scs.map mimetypeOfD) mt) "")
        = scs.filter (acceptedBy client) := by
  intro scs
  induction scs with
  | nil => intro _ _; rfl
  | cons sc rest ih =>
    intro hreg hnd
    obtain ⟨mt0, hmt0⟩ :=
      Option.isSome_iff_exists.1 (hreg sc (List.mem_cons_self ..))
    have haccsc : acceptedBy client sc = decide (mimetypeOfD sc ∈ client) := by
      simp [acceptedBy, mimetypeOfD, hmt0]
    simp only [List.map_cons, List.nodup_cons] at hnd
    have hrest := ih (fun x hx => hreg x (List.mem_cons_of_mem _ hx)) hnd.2
    have hcongr : ∀ mt ∈ (rest.map mimetypeOfD).filter
        (fun mt => decide (mt ∈ client)),
        (sc :: rest).getD
            (pyIndex (mimetypeOfD sc :: rest.map mimetypeOfD) mt) ""
          = rest.getD (pyIndex (rest.map mimetypeOfD) mt) "" := by
      intro mt hmt
      have hmem : mt ∈ rest.map mimetypeOfD := (List.mem_filter.1 hmt).1
      have hne : mimetypeOfD sc ≠ mt := fun he => hnd.1 (he ▸ hmem)
      simp [pyIndex, hne]
    have hhead : (sc :: rest).getD
        (pyIndex (mimetypeOfD sc :: rest.map mimetypeOfD) (mimetypeOfD sc)) ""
        = sc := by
      simp [pyIndex]
    simp only [List.map_cons, List.filter_cons, haccsc, decide_eq_true_eq]
    by_cases hp : mimetypeOfD sc ∈ client
    · rw [if_pos hp, if_pos hp, List.map_cons, hhead,
        List.map_congr_left hcongr, hrest]
    · rw [if_neg hp, if_neg hp, List.map_congr_left hcongr, hrest]

/-- C1 as amended: `match_accept` returns the surviving candidates in server
priority (input) order — the output is exactly the candidate list filtered
by client acceptability, client-declared quality deciding only survival,
never order (stated for candidate lists whose registered mimetypes, always
looked-up successfully, are pairwise distinct; the claim's example then
yields `["json", "xml"]`, not `["xml", "json"]`). -/
theorem c1_server_priority_order (header : String) (shortcodes : List String)
    (hreg : ∀ sc ∈ shortcodes, (MIMETYPES.lookup sc).isSome = true)
    (hnd : (shortcodes.map mimetypeOfD).Nodup) :
    match_accept header shortcodes
      = some (shortcodes.filter (acceptedBy (best_matches header)))
    ∧ match_accept "application/xml;q=1,application/json;q=0.1"
        ["html", "json", "xml"] = some ["json", "xml"] := by
  refine ⟨?_, by decide⟩
  have hla := lookupAll_eq_map shortcodes hreg
  simp only [match_accept, hla]
  exact congrArg some (backmap_filter (best_matches header) shortcodes hreg hnd)

/-- C1 counterexample: on the claim's example the code returns the matches
in server priority order `["json", "xml"]`, not the claimed quality order
`["xml", "json"]`. -/
theorem c1_counterexample :
    match_accept "application/xml;q=1,application/json;q=0.1"
        ["html", "json", "xml"] = some ["json", "xml"]
    ∧ some ["json", "xml"] ≠ some ["xml", "json"] := by
  decide

/-- Closed instance of C1 (amended) at a concrete header and candidates. -/
theorem c1_server_priority_order_witness :
    match_accept "application/json" ["html", "json"] = some ["json"] :=
  ((c1_server_priority_order "application/json" ["html", "json"]
    (by decide) (by decide)).1).trans (by decide)

/-! ### Route naming (`URLRouter.resources`) -/

theorem filter_fst_comm (ps : List (String × String)) (s : List String) :
    (ps.filter (fun p => decide (p.1 ∈ s))).map Prod.fst
      = (ps.map Prod.fst).filter (fun a => decide (a ∈ s)) := by
  induction ps with
  | nil => rfl
  | cons p t ih => by_cases hp : p.1 ∈ s <;> simp [List.filter_cons, hp, ih]

theorem length_filter_mem (l s : List String) (hl : l.Nodup) (hs : s.Nodup)
    (hsub : ∀ a ∈ s, a ∈ l) :
    (l.filter (fun a => decide (a ∈ s))).length = s.length := by
  apply List.Perm.length_eq
  apply (List.perm_ext_iff_of_nodup (hl.filter _) hs).2
  intro a
  simp only [List.mem_filter, decide_eq_true_eq]
  exact ⟨fun h => h.2, fun h => ⟨hsub a h, h⟩⟩

theorem hash_name_inj (nm : String) :
    Function.Injective (fun a => nm ++ "#" ++ a) := by
  intro a b h
  apply String.ext
  have h2 := congrArg String.data h
  simp only [String.data_append] at h2
  exact List.append_cancel_left h2

/-- C8: for a whitelist of N distinct actions drawn from the action
vocabulary, `URLRouter.resources` produces exactly N routes, their
reverse-lookup names are pairwise distinct, and each is
`"<name>#<action>"` for a whitelisted action, `name` defaulting to the
resource identifier. -/
theorem c8_route_naming (style : String → String → String → String)
    (resource_name id : String) (name : Option String)
    (actions : List String) (hnd : actions.Nodup)
    (hsub : ∀ a ∈ actions, a ∈ resourcesActionNames) :
    (urlRouterResources style resource_name id (some actions) name).length
        = actions.length
    ∧ ((urlRouterResources style resource_name id (some actions) name).map
        RouteEntry.name).Nodup
    ∧ ∀ r ∈ urlRouterResources style resource_name id (some actions) name,
        ∃ a ∈ actions, r.name = (name.getD resource_name) ++ "#" ++ a := by
  refine ⟨?_, ?_, ?_⟩
  · simp only [urlRouterResources, make_patterns, List.length_map]
    rw [← List.length_map (resourcesActionPatterns.filter
        (fun p => decide (p.1 ∈ actions))) Prod.fst]
    rw [filter_fst_comm]
    exact length_filter_mem resourcesActionNames actions (by decide) hnd hsub
  · simp only [urlRouterResources, make_patterns, List.map_map]
    rw [show ((fun r : RouteEntry => r.name) ∘ fun p : String × String =>
        ({ pattern := style p.2 "plural" id, target := resource_name,
           kwargs := [("action", .str p.2), ("mode", .str "plural")],
           name := (name.getD resource_name) ++ "#" ++ p.1 } : RouteEntry))
      = (fun a => (name.getD resource_name) ++ "#" ++ a) ∘ Prod.fst from rfl]
    rw [← List.map_map, filter_fst_comm]
    exact ((show resourcesActionNames.Nodup by decide).filter _).map
      (hash_name_inj (name.getD resource_name))
  · intro r hr
    simp only [urlRouterResources, make_patterns, List.mem_map] at hr
    obtain ⟨p, hp, rfl⟩ := hr
    have hp1 : p.1 ∈ actions := by
      simpa using (List.mem_filter.1 hp).2
    exact ⟨p.1, hp1, rfl⟩

/-- Closed instance of C8: whitelisting two actions yields two routes. -/
theorem c8_route_naming_witness :
    (urlRouterResources demoStyle "User" "[0-9]+"
      (some ["index", "show"]) none).length = 2 := by
  have h := (c8_route_naming demoStyle "User" "[0-9]+" none ["index", "show"]
    (by decide) (by decide)).1
  exact h.trans (by decide)

end Dagny
